import Mathlib

/-!
Verification development for the connector-automation content pipeline.

The Python sources `category_matcher.py` and `strapi_content_parser.py` are
shallowly embedded below: strings become `List Char`, the regular expressions
appearing in the parser are embedded by explicit backtracking searches that
follow the structure of each concrete pattern (leftmost start position, greedy
whitespace with backtracking, lazy capture, alternation of terminators), and
Python `list.sort(key=..., reverse=True)` (a stable sort) becomes a stable
descending insertion sort.
-/

set_option maxRecDepth 10000

namespace ConnectorAutomation

/-- Strings are modelled as lists of characters. -/
abbrev Str := List Char

/-- Convert a Lean string literal to the model type. -/
def str (s : String) : Str := s.data

/-- Python `str.lower` (ASCII case folding, which is all the repo uses). -/
def lowerStr (s : Str) : Str := s.map Char.toLower

/-- The characters matched by Python regex `\s` / stripped by `str.strip()`
(ASCII range). -/
def isPySpace (c : Char) : Bool :=
  c == ' ' || c == '\t' || c == '\n' || c == '\r' || c == '\x0b' || c == '\x0c'

/-- Python `str.strip()`: remove leading and trailing whitespace. -/
def pyStrip (s : Str) : Str :=
  ((s.dropWhile isPySpace).reverse.dropWhile isPySpace).reverse

/-- Python `str.startswith` / prefix test, written out recursively. -/
def isPre : Str → Str → Bool
  | [], _ => true
  | _ :: _, [] => false
  | a :: s, b :: t => a == b && isPre s t

/-- Python `needle in hay` substring test. -/
def isSub (needle : Str) : Str → Bool
  | [] => needle.isEmpty
  | c :: t => isPre needle (c :: t) || isSub needle t

/-- Helper for `countOcc`: count non-overlapping occurrences of the non-empty
needle `o :: os`, scanning left to right (Python `str.count`).  The extra
`Nat` is a structural fuel, always at least the length of the scanned list
(each step consumes one unit and at least one character), so the fuel never
runs out when `countOcc` supplies `hay.length`; it exists only to make the
recursion structural so that the definition evaluates. -/
def countAux (o : Char) (os : Str) : Nat → Str → Nat
  | _, [] => 0
  | 0, _ :: _ => 0
  | fuel + 1, c :: t =>
    if isPre (o :: os) (c :: t) then 1 + countAux o os fuel (t.drop os.length)
    else countAux o os fuel t

/-- Python `hay.count(needle)`: non-overlapping occurrences (len+1 for the
empty needle, as in CPython). -/
def countOcc (needle hay : Str) : Nat :=
  match needle with
  | [] => hay.length + 1
  | o :: os => countAux o os hay.length hay

/-- Helper for `pyReplace` with a non-empty pattern `o :: os`; fuel as in
`countAux`. -/
def replaceAux (o : Char) (os new : Str) : Nat → Str → Str
  | _, [] => []
  | 0, s => s
  | fuel + 1, c :: t =>
    if isPre (o :: os) (c :: t) then new ++ replaceAux o os new fuel (t.drop os.length)
    else c :: replaceAux o os new fuel t

/-- Python `s.replace(old, new)` (non-overlapping, left to right; the
empty-pattern case interleaves `new` everywhere, as CPython does). -/
def pyReplace (s old new : Str) : Str :=
  match old with
  | [] => new ++ s.foldr (fun c acc => c :: (new ++ acc)) []
  | o :: os => replaceAux o os new s.length s

/-- Python truthiness-based `x or d` for `x : Optional[str]`: `None` and the
empty string are falsy. -/
def pyOr (x : Option Str) (d : Str) : Str :=
  match x with
  | none => d
  | some s => if s.isEmpty then d else s

/-- Python `s.split(chr(10))`. -/
def splitNl : Str → List Str
  | [] => [[]]
  | c :: t =>
    match splitNl t with
    | [] => [[]]
    | h :: r => if c == '\n' then [] :: h :: r else (c :: h) :: r

/-- Python `"\n".join parts` (also used with other separators). -/
def joinWith (sep : Str) (parts : List Str) : Str :=
  (parts.intersperse sep).flatten

/-! ### Embedded regex searches

Each regex in `strapi_content_parser.py` has the shape
`LITERAL \s* (\n)? (.+?) TERMINATOR`.  The combinators below implement
exactly the `re.search` backtracking order for that shape: starting
positions left to right, `\s*` greedy with backtracking, `(.+?)` lazy,
and the terminator tested at the capture end. -/

/-- Lazy capture `(.+?)` followed by a terminator test: return the shortest
non-empty prefix whose following suffix satisfies `stop`.  When `allowNl` is
false the dot does not match a newline (no `re.DOTALL`). -/
def capScan (allowNl : Bool) (stop : Str → Bool) (acc : Str) : Str → Option Str
  | [] => none
  | c :: rest =>
    if !allowNl && c == '\n' then none
    else if stop rest then some (acc ++ [c])
    else capScan allowNl stop (acc ++ [c]) rest

/-- Backtracking over the greedy `\s*`: try `f j` for `j = hi, hi-1, ..., 0`
and return the first success. -/
def descTry (f : Nat → Option Str) : Nat → Option Str
  | 0 => f 0
  | j + 1 =>
    match f (j + 1) with
    | some r => some r
    | none => descTry f j

/-- `\s*` (greedy, with backtracking), then a literal `\n` when `needNl` is
true, then the lazy capture with terminator `stop`. -/
def wsThenCap (needNl allowNl : Bool) (stop : Str → Bool) (rest0 : Str) : Option Str :=
  descTry
    (fun j =>
      let r := rest0.drop j
      if needNl then
        match r with
        | c :: after => if c == '\n' then capScan allowNl stop [] after else none
        | [] => none
      else capScan allowNl stop [] r)
    (rest0.takeWhile isPySpace).length

/-- `re.search` outer loop: try the pattern at every start position, left to
right, returning the first successful capture. -/
def searchAux (p : Str → Option Str) : Str → Option Str
  | [] => p []
  | c :: t =>
    match p (c :: t) with
    | some r => some r
    | none => searchAux p t

/-- Terminator `(?:\n\n|\n\[)` of the section patterns. -/
def termBool (r : Str) : Bool :=
  isPre (str "\n\n") r || isPre (str "\n[") r

/-- The pattern body of a non-final section search, tried at one start
position. -/
def sectionPat (lbl : Str) (multiline : Bool) (s : Str) : Option Str :=
  let pat := str "[" ++ lbl ++ str "]"
  if isPre pat s then wsThenCap true multiline termBool (s.drop pat.length)
  else none

/-- `StrapiContentParser._extract_section` for the non-final sections:
`re.search(r'\[LABEL\]\s*\n(.+?)(?:\n\n|\n\[)', content, flags)` followed by
`.strip()` on the capture; `multiline` turns on `re.DOTALL`. -/
def extractSection (content lbl : Str) (multiline : Bool) : Option Str :=
  (searchAux (sectionPat lbl multiline) content).map pyStrip

/-- The pattern body of the final-section search, tried at one start
position; `$` matches at end of input or just before a final newline. -/
def finalPat (lbl : Str) (s : Str) : Option Str :=
  let pat := str "[" ++ lbl ++ str "]"
  if isPre pat s then
    wsThenCap true true (fun r => r.isEmpty || r == str "\n") (s.drop pat.length)
  else none

/-- The final-section pattern `\[FAQs\]\s*\n(.+?)$` with `re.DOTALL`. -/
def extractFinal (content lbl : Str) : Option Str :=
  (searchAux (finalPat lbl) content).map pyStrip

/-! ### `category_matcher.py` -/

/-- A taxonomy entry loaded from `categories.json` / `tags.json`:
`{id, name, keywords}`. -/
structure TaxEntry where
  id : Int
  name : Str
  keywords : List Str
deriving DecidableEq, Repr

/-- The transient scored record built by `match_categories` / `match_tags`
(`{'id', 'name', 'score', 'matched_keywords'}`). -/
structure ScoredEntry where
  id : Int
  name : Str
  score : Nat
  matchedKeywords : List Str
deriving DecidableEq, Repr

/-- The haystack `f"{connector_name.lower()} {content.lower()}"`. -/
def haystack (connector_name content : Str) : Str :=
  lowerStr connector_name ++ str " " ++ lowerStr content

/-- The per-entry scoring loop: for each keyword, count occurrences in the
haystack; a keyword occurring in the lowercased connector name weighs each
occurrence times 10, otherwise times 2. -/
def scoreEntry (connector_name content : Str) (keywords : List Str) : Nat :=
  keywords.foldl
    (fun score keyword =>
      let kl := lowerStr keyword
      let count := countOcc kl (haystack connector_name content)
      if 0 < count then
        if isSub kl (lowerStr connector_name) then score + count * 10
        else score + count * 2
      else score)
    0

/-- The matched-keyword list accumulated alongside the score. -/
def matchedKeywordsOf (connector_name content : Str) (keywords : List Str) : List Str :=
  keywords.filter (fun keyword => 0 < countOcc (lowerStr keyword) (haystack connector_name content))

/-- Build the list of `ScoredEntry` records: entries with score 0 are not
appended. -/
def buildScores (connector_name content : Str) (tax : List TaxEntry) : List ScoredEntry :=
  tax.filterMap
    (fun e =>
      if 0 < scoreEntry connector_name content e.keywords then
        some ⟨e.id, e.name, scoreEntry connector_name content e.keywords,
          matchedKeywordsOf connector_name content e.keywords⟩
      else none)

/-- Stable insertion for the descending sort: `x` (which precedes the already
sorted elements in the input) skips only elements with a strictly greater
score, so equal scores keep their input order.  Together with
`sortDescStable` this is extensionally Python
`list.sort(key=lambda x: x['score'], reverse=True)`, which is a stable sort. -/
def insertDesc (x : ScoredEntry) : List ScoredEntry → List ScoredEntry
  | [] => [x]
  | y :: ys => if x.score < y.score then y :: insertDesc x ys else x :: y :: ys

/-- Stable descending sort by score (insertion sort; agrees extensionally with
Python stable `sort(..., reverse=True)`). -/
def sortDescStable : List ScoredEntry → List ScoredEntry
  | [] => []
  | a :: t => insertDesc a (sortDescStable t)

/-- Shared body of `match_categories` and `match_tags`: score, sort stably by
descending score, truncate, project the ids. -/
def matchTaxonomy (tax : List TaxEntry) (connector_name content : Str) (maxN : Nat) : List Int :=
  (((sortDescStable (buildScores connector_name content tax)).take maxN).map ScoredEntry.id)

/-- `CategoryMatcher`: two taxonomies loaded at construction. -/
structure CategoryMatcher where
  categories : List TaxEntry
  tags : List TaxEntry

/-- `CategoryMatcher.match_categories` (default `max_categories = 3` is applied
at the call sites). -/
def CategoryMatcher.match_categories (m : CategoryMatcher)
    (connector_name content : Str) (max_categories : Nat) : List Int :=
  matchTaxonomy m.categories connector_name content max_categories

/-- `CategoryMatcher.match_tags` (default `max_tags = 2` is applied at the call
sites); the body is the same algorithm run on the tag taxonomy. -/
def CategoryMatcher.match_tags (m : CategoryMatcher)
    (connector_name content : Str) (max_tags : Nat) : List Int :=
  matchTaxonomy m.tags connector_name content max_tags

/-! ### `strapi_content_parser.py` -/

/-- One `{"question": ..., "answer": ...}` record. -/
structure FaqPair where
  question : Str
  answer : Str
deriving DecidableEq, Repr

/-- The `structuredData` sub-object (fields `@context`, `@type`, `name`,
`description`). -/
structure StructuredData where
  atContext : Str
  atType : Str
  sdName : Str
  sdDescription : Str
deriving DecidableEq, Repr

/-- The `openGraph` sub-object. -/
structure OpenGraph where
  ogTitle : Str
  ogDescription : Str
  ogImage : Str
  ogUrl : Str
  ogType : Str
deriving DecidableEq, Repr

/-- The `twitterCard` sub-object. -/
structure TwitterCard where
  twitterCard : Str
  twitterTitle : Str
  twitterDescription : Str
  twitterImage : Str
  twitterSite : Str
  twitterCreator : Str
deriving DecidableEq, Repr

/-- The `seo` sub-object of the Strapi payload. -/
structure Seo where
  metaTitle : Str
  metaDescription : Str
  metaImage : Str
  keywords : Str
  metaRobots : Str
  metaViewport : Str
  canonicalURL : Str
  structuredData : StructuredData
  openGraph : OpenGraph
  twitterCard : TwitterCard
deriving DecidableEq, Repr

/-- The full Strapi payload assembled by `parse_integration_page`. -/
structure StrapiData where
  name : Str
  heroTitle : Str
  description : Str
  slug : Str
  icon : Str
  content : Str
  category : List Int
  tags : List Int
  faqs : List FaqPair
  seo : Seo
  publishedAt : Str
deriving DecidableEq, Repr

/-- One line of `_convert_bullets_to_html`: a stripped line starting with `*`
becomes a list item, split at the first colon into a semi-bold label and a
description when a colon is present. -/
def bulletItem (line : Str) : Option Str :=
  match pyStrip line with
  | '*' :: rest =>
    let item := pyStrip rest
    if item.any (fun c => c == ':') then
      let lbl := pyStrip (item.takeWhile (fun c => !(c == ':')))
      let desc := pyStrip ((item.dropWhile (fun c => !(c == ':'))).drop 1)
      some (str "<li><p><span style=\x27font-weight: 600;\x27>" ++ lbl ++ str ":</span> "
        ++ desc ++ str "</p></li>")
    else some (str "<li><p>" ++ item ++ str "</p></li>")
  | _ => none

/-- `StrapiContentParser._convert_bullets_to_html`. -/
def convertBullets (text : Str) : Str :=
  let html_items := (splitNl text).filterMap bulletItem
  if html_items.isEmpty then str "<p>" ++ text ++ str "</p>"
  else str "<ul>\n" ++ joinWith (str "\n") html_items ++ str "\n</ul>"

/-- Guard used all over the parser: Python truthiness of an `Optional[str]`
(`None` and the empty string are falsy). -/
def optParts (o : Option Str) (f : Str → List Str) : List Str :=
  match o with
  | none => []
  | some s => if s.isEmpty then [] else f s

/-- `StrapiContentParser._build_html_content` (title and one-liner are
received but deliberately not rendered). -/
def build_html_content (title one_liner overview capabilities workflows benefits security :
    Option Str) : Str :=
  let html_parts : List Str :=
    optParts overview (fun o => [str "<h2>Overview</h2><p>" ++ o ++ str "</p>"])
    ++ optParts capabilities (fun c => [str "<h2>Core Capabilities</h2>", convertBullets c])
    ++ optParts workflows (fun w => [str "<h2>Common Automation Workflows</h2>", convertBullets w])
    ++ optParts benefits (fun b => [str "<h2>Key Benefits</h2>", convertBullets b])
    ++ optParts security (fun s => [str "<h2>Security and Permissions</h2><p>" ++ s ++ str "</p>"])
  let _ := (title, one_liner)
  joinWith (str "\n") html_parts

/-- Python string comparison `a < b` (lexicographic by code point). -/
def ltStr : Str → Str → Bool
  | [], [] => false
  | [], _ :: _ => true
  | _ :: _, [] => false
  | a :: s, b :: t => if a < b then true else if b < a then false else ltStr s t

/-- Sorted-set insertion: keep the accumulator strictly sorted and
duplicate-free, like inserting into a Python `set` and reading it back with
`sorted(...)`. -/
def insStr (w : Str) : List Str → List Str
  | [] => [w]
  | v :: r =>
    if ltStr w v then w :: v :: r
    else if w = v then v :: r
    else v :: insStr w r

/-- `sorted(set(l))` for a list of strings. -/
def sortedSet (l : List Str) : List Str :=
  l.foldl (fun acc w => insStr w acc) []

/-- The stop-word list of `_extract_keywords`. -/
def stopWords : List Str :=
  [str "the", str "a", str "an", str "and", str "or", str "but", str "in", str "on",
   str "at", str "to", str "for", str "of", str "with", str "by"]

/-- Word characters for the regex `\b[a-zA-Z]{4,}\b` boundary analysis. -/
def isWordChar (c : Char) : Bool :=
  ('a' ≤ c && c ≤ 'z') || ('A' ≤ c && c ≤ 'Z') || ('0' ≤ c && c ≤ '9') || c == '_'

/-- Alphabetic test. -/
def isAlphaChar (c : Char) : Bool :=
  ('a' ≤ c && c ≤ 'z') || ('A' ≤ c && c ≤ 'Z')

/-- Maximal runs of word characters in a string. -/
def wordRuns : Str → List Str
  | [] => []
  | c :: t =>
    match wordRuns t, isWordChar c, t with
    | _, false, _ => wordRuns t
    | rs, true, [] => [[c]] ++ rs
    | rs, true, d :: _ =>
      if isWordChar d then
        match rs with
        | [] => [[c]]
        | h :: r => (c :: h) :: r
      else [c] :: rs

/-- `re.findall(r'\b[a-zA-Z]{4,}\b', s)`: exactly the maximal word-character
runs that are purely alphabetic and at least 4 characters long. -/
def findWords (s : Str) : List Str :=
  (wordRuns s).filter (fun w => w.all isAlphaChar && 4 ≤ w.length)

/-- The four fixed keywords added by `_extract_keywords`. -/
def fixedKeywords : List Str :=
  [str "integration", str "automation", str "workflow", str "ruh ai"]

/-- `StrapiContentParser._extract_keywords`: despite its three parameters the
source only reads words from the title (one-liner and overview are unused). -/
def extract_keywords (title one_liner overview : Option Str) : Str :=
  let titleWords : List Str :=
    match title with
    | none => []
    | some t =>
      if t.isEmpty then []
      else (findWords (lowerStr t)).filter (fun w => !(stopWords.contains w))
  let _ := (one_liner, overview)
  joinWith (str ", ") ((sortedSet (titleWords ++ fixedKeywords)).take 15)

/-- `re.split(r'\n(?=Q:)', s)`: split at every newline immediately followed by
`Q:` (the newline is consumed, the lookahead is not). -/
def splitQ : Str → List Str
  | [] => [[]]
  | c :: t =>
    if c == '\n' && isPre (str "Q:") t then [] :: splitQ t
    else
      match splitQ t with
      | [] => [[]]
      | h :: r => (c :: h) :: r

/-- The question search `re.search(r'Q:\s*(.+?)(?=\nA:)', block, re.DOTALL)`. -/
def searchQ (block : Str) : Option Str :=
  searchAux
    (fun s =>
      if isPre (str "Q:") s then
        wsThenCap false true (fun r => isPre (str "\nA:") r) (s.drop 2)
      else none)
    block

/-- The answer search `re.search(r'A:\s*(.+?)$', block, re.DOTALL)`. -/
def searchA (block : Str) : Option Str :=
  searchAux
    (fun s =>
      if isPre (str "A:") s then
        wsThenCap false true (fun r => r.isEmpty || r == str "\n") (s.drop 2)
      else none)
    block

/-- `StrapiContentParser._parse_faqs`. -/
def parse_faqs (faqs_text : Option Str) : List FaqPair :=
  match faqs_text with
  | none => []
  | some s =>
    if s.isEmpty then []
    else
      (splitQ (pyStrip s)).filterMap
        (fun block =>
          let b := pyStrip block
          if b.isEmpty then none
          else
            match searchQ b, searchA b with
            | some q, some a => some ⟨pyStrip q, pyStrip a⟩
            | _, _ => none)

/-- `StrapiContentParser._generate_faqs`: the fixed synthetic fallback set;
`capabilities` and `workflows` are accepted but unused. -/
def generate_faqs (connector_name : Str) (capabilities workflows : Option Str) : List FaqPair :=
  let _ := (capabilities, workflows)
  [⟨str "What is " ++ connector_name ++ str " integration with Ruh AI?",
    connector_name ++ str " integration with Ruh AI enables seamless automation and data synchronization between "
      ++ connector_name ++ str " and your enterprise systems."⟩,
   ⟨str "How does " ++ connector_name ++ str " integration work?",
    str "The integration uses bi-directional data flow to automatically sync information between systems, reducing manual entry and improving accuracy."⟩,
   ⟨str "Is the integration secure?",
    str "Yes, all data transfers are encrypted in transit and at rest, with OAuth 2.0 authentication ensuring only authorized users can access or modify data."⟩,
   ⟨str "Can I customize the " ++ connector_name ++ str " integration?",
    str "Yes, you can configure which data fields sync, set up custom automation workflows, and control permissions based on your team\x27s needs."⟩,
   ⟨str "How quickly does data sync between Ruh AI and " ++ connector_name ++ str "?",
    str "Data syncs in real-time, ensuring your team always has the most up-to-date information across both platforms."⟩]

/-- The slug derivation
`connector_name.lower().replace(' ', '-').replace('(', '').replace(')', '').replace('.', '-')`. -/
def slugOf (connector_name : Str) : Str :=
  pyReplace
    (pyReplace
      (pyReplace
        (pyReplace (lowerStr connector_name) (str " ") (str "-"))
        (str "(") [])
      (str ")") [])
    (str ".") (str "-")

/-- `StrapiContentParser.parse_integration_page`, with the file contents, the
outcome of the `CategoryMatcher()` construction (`none` models the caught
exception of the `try` block) and the timestamp passed explicitly. -/
def parse_integration_page (content connector_name logo_url : Str)
    (matcherOutcome : Option CategoryMatcher) (now : Str) : StrapiData :=
  let title := extractSection content (str "Title") false
  let one_liner := extractSection content (str "One-line connector statement") false
  let overview := extractSection content (str "Overview paragraph") false
  let capabilities := extractSection content (str "Core Capabilities") true
  let workflows := extractSection content (str "Common Automation Workflows") true
  let benefits := extractSection content (str "Key Benefits") true
  let security := extractSection content (str "Security and Permissions") true
  let faqs_text := extractFinal content (str "FAQs")
  let html0 := build_html_content title one_liner overview capabilities workflows benefits security
  let html_content :=
    if html0.isEmpty || (pyStrip html0).isEmpty then
      str "<div>" ++ pyReplace content (str "\n") (str "<br>") ++ str "</div>"
    else html0
  let slug := slugOf connector_name
  let keywords := extract_keywords title one_liner overview
  let parsed := parse_faqs faqs_text
  let faqs :=
    if parsed.isEmpty || parsed.length < 3 then generate_faqs connector_name capabilities workflows
    else parsed
  let ids : List Int × List Int :=
    match matcherOutcome with
    | none => ([], [])
    | some m => (m.match_categories connector_name content 3, m.match_tags connector_name content 2)
  ⟨connector_name,
   pyOr title (connector_name ++ str " + Ruh AI Integration"),
   pyOr one_liner (str "Integration between " ++ connector_name ++ str " and Ruh AI"),
   slug,
   logo_url,
   html_content,
   ids.1,
   ids.2,
   faqs,
   ⟨(pyOr title (connector_name ++ str " Integration - Ruh AI")).take 60,
    (pyOr one_liner (str "Integrate " ++ connector_name
       ++ str " with Ruh AI for intelligent automation and seamless workflows.")).take 160,
    logo_url,
    keywords,
    str "index follow",
    str "width=device-width initial-scale=1",
    str "https://ruh.ai/integrations/" ++ slug,
    ⟨str "https://schema.org", str "SoftwareApplication",
     connector_name ++ str " + Ruh AI Integration",
     (pyOr one_liner (str "Integrate " ++ connector_name ++ str " with Ruh AI")).take 200⟩,
    ⟨(pyOr title (connector_name ++ str " + Ruh AI Integration")).take 70,
     (pyOr one_liner (str "Integrate " ++ connector_name
        ++ str " with Ruh AI for intelligent automation.")).take 200,
     logo_url,
     str "https://ruh.ai/integrations/" ++ slug,
     str "website"⟩,
    ⟨str "summary_large_image",
     (pyOr title (connector_name ++ str " + Ruh AI")).take 70,
     (pyOr one_liner (str "Integrate " ++ connector_name
        ++ str " with Ruh AI for intelligent automation.")).take 200,
     logo_url,
     str "@ruh_ai",
     str "@ruh_ai"⟩⟩,
   now ++ str "Z"⟩

/-! ### Claim-side and specification-level definitions used by the theorems -/

/-- The per-keyword contribution described by the spec: occurrences weighted
by 10 when the lowercased keyword occurs in the lowercased connector name,
by 2 otherwise. -/
def keywordContribution (connector_name content keyword : Str) : Nat :=
  let kl := lowerStr keyword
  if isSub kl (lowerStr connector_name) then countOcc kl (haystack connector_name content) * 10
  else countOcc kl (haystack connector_name content) * 2

/-- Formalization of the claim recipe for the slug: lowercase the connector
name, replace spaces by hyphens, strip the parentheses, and replace dots by
hyphens (stated as one pass of character maps and filters). -/
def claimSlug (connector_name : Str) : Str :=
  ((((lowerStr connector_name).map (fun c => if c = ' ' then '-' else c)).filter
      (fun c => !(c = '(' || c = ')'))).map (fun c => if c = '.' then '-' else c))

/-- Formalization of the claim recipe for `seo.keywords`: alphabetic words of
length at least 4 drawn from the extracted title, one-liner AND overview,
lowercased, deduplicated, filtered against the stop words, unioned with the
four fixed keywords, sorted, capped at 15 and comma-joined. -/
def claimKeywords (title one_liner overview : Option Str) : Str :=
  let wordsOf : Option Str → List Str := fun o =>
    match o with
    | none => []
    | some s => findWords (lowerStr s)
  joinWith (str ", ")
    ((sortedSet
        (((wordsOf title ++ wordsOf one_liner ++ wordsOf overview).filter
            (fun w => !(stopWords.contains w))) ++ fixedKeywords)).take 15)

/-- The position of the entry with id `i` in the taxonomy. -/
def idIndex (tax : List TaxEntry) (i : Int) : Nat :=
  tax.findIdx (fun e => e.id == i)

/-- The score of the taxonomy entry with id `i` (0 when absent). -/
def idScore (tax : List TaxEntry) (connector_name content : Str) (i : Int) : Nat :=
  ((tax.find? (fun e => e.id == i)).map
    (fun e => scoreEntry connector_name content e.keywords)).getD 0

/-- The claimed ranking on returned ids: strictly higher score first, equal
scores in original taxonomy order. -/
def rankedBefore (tax : List TaxEntry) (connector_name content : Str) (i j : Int) : Prop :=
  idScore tax connector_name content j < idScore tax connector_name content i
  ∨ (idScore tax connector_name content j = idScore tax connector_name content i
      ∧ idIndex tax i < idIndex tax j)

/-- The C1 output properties of one `match_*` call. -/
def matchOutputOk (tax : List TaxEntry) (connector_name content : Str) (maxN : Nat)
    (res : List Int) : Prop :=
  res.length ≤ maxN ∧ res.Nodup ∧ res.Pairwise (rankedBefore tax connector_name content)
  ∧ ∀ i ∈ res, 0 < idScore tax connector_name content i

/-- The ordering invariant of the stable descending sort, relative to a
position function `f`. -/
def scoreRel (f : ScoredEntry → Nat) (x y : ScoredEntry) : Prop :=
  y.score < x.score ∨ (y.score = x.score ∧ f x < f y)

/-! ### Generic helper lemmas -/

theorem searchAux_cons_some {p : Str → Option Str} {c : Char} {t r : Str}
    (h : p (c :: t) = some r) : searchAux p (c :: t) = some r := by
  simp [searchAux, h]

theorem searchAux_cons_none {p : Str → Option Str} {c : Char} {t : Str}
    (h : p (c :: t) = none) : searchAux p (c :: t) = searchAux p t := by
  simp [searchAux, h]

theorem isPre_append_self : ∀ (l r : Str), isPre l (l ++ r) = true
  | [], _ => rfl
  | a :: s, r => by simp [isPre, isPre_append_self s r]

/-! ### Claim C2: keyword weighting -/

theorem scoreEntry_foldl_eq (connector_name content : Str) :
    ∀ (kws : List Str) (a : Nat),
      kws.foldl
        (fun score keyword =>
          let kl := lowerStr keyword
          let count := countOcc kl (haystack connector_name content)
          if 0 < count then
            if isSub kl (lowerStr connector_name) then score + count * 10
            else score + count * 2
          else score)
        a
      = a + (kws.map (keywordContribution connector_name content)).sum := by
  intro kws
  induction kws with
  | nil => intro a; simp
  | cons k t ih =>
    intro a
    rw [List.foldl_cons, ih, List.map_cons, List.sum_cons]
    simp only [keywordContribution]
    by_cases h : 0 < countOcc (lowerStr k) (haystack connector_name content)
    · by_cases hs : isSub (lowerStr k) (lowerStr connector_name) = true <;>
        simp [h, hs] <;> omega
    · have h0 : countOcc (lowerStr k) (haystack connector_name content) = 0 := by omega
      by_cases hs : isSub (lowerStr k) (lowerStr connector_name) = true <;>
        simp [h, hs, h0]

/-- C2: every keyword of a taxonomy entry contributes
`occurrences * 10` to the entry score when the lowercased keyword is a
substring of the lowercased entity name and `occurrences * 2` otherwise
(a keyword with zero occurrences contributes zero either way); concretely,
for entity name `Acme` with taxonomy keyword `acme` and unrelated keyword
`data` each occurring exactly twice in the haystack, the two entry scores
are 20 and 4. -/
theorem c2_keyword_weights :
    (∀ (connector_name content : Str) (kws : List Str),
      scoreEntry connector_name content kws
        = (kws.map (keywordContribution connector_name content)).sum)
    ∧ countOcc (str "acme") (haystack (str "Acme") (str "Acme syncs data and data.")) = 2
    ∧ countOcc (str "data") (haystack (str "Acme") (str "Acme syncs data and data.")) = 2
    ∧ scoreEntry (str "Acme") (str "Acme syncs data and data.") [str "acme"] = 20
    ∧ scoreEntry (str "Acme") (str "Acme syncs data and data.") [str "data"] = 4 := by
  refine ⟨fun connector_name content kws => ?_, by decide, by decide, by decide, by decide⟩
  simpa using scoreEntry_foldl_eq connector_name content kws 0

/-! ### Claim C5: slug derivation -/

theorem replaceAux_single_map (c d : Char) :
    ∀ (s : Str) (fuel : Nat), s.length ≤ fuel →
      replaceAux c [] [d] fuel s = s.map (fun x => if c = x then d else x) := by
  intro s
  induction s with
  | nil => intro fuel _; cases fuel <;> rfl
  | cons x t ih =>
    intro fuel hf
    cases fuel with
    | zero => simp at hf
    | succ f =>
      have ht : t.length ≤ f := by simp at hf; omega
      by_cases h : c = x
      · subst h; simp [replaceAux, isPre, ih f ht]
      · simp [replaceAux, isPre, h, ih f ht]

theorem replaceAux_single_del (c : Char) :
    ∀ (s : Str) (fuel : Nat), s.length ≤ fuel →
      replaceAux c [] [] fuel s = s.filter (fun x => !(c = x)) := by
  intro s
  induction s with
  | nil => intro fuel _; cases fuel <;> rfl
  | cons x t ih =>
    intro fuel hf
    cases fuel with
    | zero => simp at hf
    | succ f =>
      have ht : t.length ≤ f := by simp at hf; omega
      by_cases h : c = x
      · subst h; simp [replaceAux, isPre, ih f ht]
      · simp [replaceAux, isPre, h, ih f ht]

/-- C5 counterexample: the slug of `"Sales.Force (Inc.)"` is not
`"salesforce-inc"` (the dots become hyphens, including the trailing one). -/
theorem c5_counterexample :
    slugOf (str "Sales.Force (Inc.)") ≠ str "salesforce-inc" := by decide

/-- C5 (amended): the slug is the lowercase connector name with spaces
replaced by hyphens, parentheses stripped and dots replaced by hyphens
(hence deterministic in the name), and the slug of `"Sales.Force (Inc.)"`
is the exact string `"sales-force-inc-"`. -/
theorem c5_slug_amended :
    (∀ connector_name : Str, slugOf connector_name = claimSlug connector_name)
    ∧ slugOf (str "Sales.Force (Inc.)") = str "sales-force-inc-" := by
  constructor
  · intro connector_name
    have e1 : ∀ s : Str, pyReplace s (str " ") (str "-")
        = s.map (fun x => if ' ' = x then '-' else x) :=
      fun s => replaceAux_single_map ' ' '-' s s.length (le_refl _)
    have e2 : ∀ s : Str, pyReplace s (str "(") []
        = s.filter (fun x => !('(' = x)) :=
      fun s => replaceAux_single_del '(' s s.length (le_refl _)
    have e3 : ∀ s : Str, pyReplace s (str ")") []
        = s.filter (fun x => !(')' = x)) :=
      fun s => replaceAux_single_del ')' s s.length (le_refl _)
    have e4 : ∀ s : Str, pyReplace s (str ".") (str "-")
        = s.map (fun x => if '.' = x then '-' else x) :=
      fun s => replaceAux_single_map '.' '-' s s.length (le_refl _)
    unfold slugOf claimSlug
    rw [e1, e2, e3, e4, List.filter_filter]
    congr 1
    · funext x
      by_cases h : x = '.' <;> simp [h, eq_comm]
    · congr 1
      · funext x
        by_cases h1 : x = '(' <;> by_cases h2 : x = ')' <;> simp [h1, h2, eq_comm]
      · congr 1
        funext x
        by_cases h : x = ' ' <;> simp [h, eq_comm]
  · decide

/-! ### Claims C4 and C10: FAQ threshold and fallback -/

/-- The faq field of the assembled payload as a single equation (the
`not faqs or len(faqs) < 3` test of the source collapses to the length
test). -/
theorem parse_faqs_field (content connector_name logo_url : Str)
    (mo : Option CategoryMatcher) (now : Str) :
    (parse_integration_page content connector_name logo_url mo now).faqs =
      if (parse_faqs (extractFinal content (str "FAQs"))).length < 3 then
        generate_faqs connector_name (extractSection content (str "Core Capabilities") true)
          (extractSection content (str "Common Automation Workflows") true)
      else parse_faqs (extractFinal content (str "FAQs")) := by
  show (if (parse_faqs (extractFinal content (str "FAQs"))).isEmpty
        || (parse_faqs (extractFinal content (str "FAQs"))).length < 3 then _ else _) = _
  by_cases h : (parse_faqs (extractFinal content (str "FAQs"))).length < 3
  · simp [h]
  · have hne : (parse_faqs (extractFinal content (str "FAQs"))).isEmpty = false := by
      rcases hl : parse_faqs (extractFinal content (str "FAQs")) with _ | _
      · rw [hl] at h; simp at h
      · rfl
    simp [h, hne]

/-- C4: the payload faq list is all-or-nothing: when fewer than 3 pairs are
parsed from the FAQs section (including zero, which covers the absent and the
malformed section), the payload carries exactly the synthetic fallback set,
which depends only on the connector name; when at least 3 pairs are parsed,
they are returned verbatim. -/
theorem c4_faq_all_or_nothing (content connector_name logo_url : Str)
    (mo : Option CategoryMatcher) (now : Str) :
    ((parse_integration_page content connector_name logo_url mo now).faqs =
      if (parse_faqs (extractFinal content (str "FAQs"))).length < 3 then
        generate_faqs connector_name (extractSection content (str "Core Capabilities") true)
          (extractSection content (str "Common Automation Workflows") true)
      else parse_faqs (extractFinal content (str "FAQs")))
    ∧ ∀ (c w c2 w2 : Option Str),
        generate_faqs connector_name c w = generate_faqs connector_name c2 w2 :=
  ⟨parse_faqs_field content connector_name logo_url mo now, fun _ _ _ _ => rfl⟩

/-- C10: the payload always carries at least 3 FAQ pairs: either at least 3
pairs parsed from the document, or the synthetic fallback of exactly 5. -/
theorem c10_faqs_at_least_three (content connector_name logo_url : Str)
    (mo : Option CategoryMatcher) (now : Str) :
    3 ≤ (parse_integration_page content connector_name logo_url mo now).faqs.length
    ∧ (((parse_integration_page content connector_name logo_url mo now).faqs
          = parse_faqs (extractFinal content (str "FAQs"))
        ∧ 3 ≤ (parse_faqs (extractFinal content (str "FAQs"))).length)
      ∨ ((parse_integration_page content connector_name logo_url mo now).faqs
          = generate_faqs connector_name (extractSection content (str "Core Capabilities") true)
              (extractSection content (str "Common Automation Workflows") true)
        ∧ (generate_faqs connector_name (extractSection content (str "Core Capabilities") true)
              (extractSection content (str "Common Automation Workflows") true)).length = 5)) := by
  have h4 := parse_faqs_field content connector_name logo_url mo now
  have hgen :
      (generate_faqs connector_name (extractSection content (str "Core Capabilities") true)
        (extractSection content (str "Common Automation Workflows") true)).length = 5 := by
    simp [generate_faqs]
  by_cases h : (parse_faqs (extractFinal content (str "FAQs"))).length < 3
  · rw [if_pos h] at h4
    exact ⟨by rw [h4, hgen]; omega, Or.inr ⟨h4, hgen⟩⟩
  · rw [if_neg h] at h4
    exact ⟨by rw [h4]; omega, Or.inl ⟨h4, by omega⟩⟩

/-! ### Claim C9: classification failure is non-fatal -/

/-- C9: when the matcher construction or the scoring fails (the `except`
branch of the `try`), the payload is still fully assembled, with empty
category and tag lists and every other field exactly as in a run with a
working matcher. -/
theorem c9_matcher_failure_nonfatal (content connector_name logo_url : Str)
    (m : CategoryMatcher) (now : Str) :
    (parse_integration_page content connector_name logo_url none now).category = []
    ∧ (parse_integration_page content connector_name logo_url none now).tags = []
    ∧ (parse_integration_page content connector_name logo_url none now).name
        = (parse_integration_page content connector_name logo_url (some m) now).name
    ∧ (parse_integration_page content connector_name logo_url none now).heroTitle
        = (parse_integration_page content connector_name logo_url (some m) now).heroTitle
    ∧ (parse_integration_page content connector_name logo_url none now).description
        = (parse_integration_page content connector_name logo_url (some m) now).description
    ∧ (parse_integration_page content connector_name logo_url none now).slug
        = (parse_integration_page content connector_name logo_url (some m) now).slug
    ∧ (parse_integration_page content connector_name logo_url none now).icon
        = (parse_integration_page content connector_name logo_url (some m) now).icon
    ∧ (parse_integration_page content connector_name logo_url none now).content
        = (parse_integration_page content connector_name logo_url (some m) now).content
    ∧ (parse_integration_page content connector_name logo_url none now).faqs
        = (parse_integration_page content connector_name logo_url (some m) now).faqs
    ∧ (parse_integration_page content connector_name logo_url none now).seo
        = (parse_integration_page content connector_name logo_url (some m) now).seo
    ∧ (parse_integration_page content connector_name logo_url none now).publishedAt
        = (parse_integration_page content connector_name logo_url (some m) now).publishedAt :=
  ⟨rfl, rfl, rfl, rfl, rfl, rfl, rfl, rfl, rfl, rfl, rfl⟩

/-! ### Claim C7: keyword sources -/

/-- C7 counterexample: a word appearing only in the one-liner (here `zebra`)
or the overview (here `quokka`) never reaches the keywords string, so the
claimed recipe over all three sources disagrees with the code. -/
theorem c7_counterexample :
    extract_keywords (some (str "Alpha tool")) (some (str "zebra zebra")) (some (str "quokka"))
      ≠ claimKeywords (some (str "Alpha tool")) (some (str "zebra zebra")) (some (str "quokka")) := by
  decide

/-- C7 (amended): the keywords string is built by the claimed pipeline but
drawing words from the extracted title only; the one-liner and overview
arguments are ignored. -/
theorem c7_keywords_amended (title one_liner overview : Option Str) :
    extract_keywords title one_liner overview = claimKeywords title none none := by
  cases title with
  | none => rfl
  | some t =>
    by_cases h : t.isEmpty
    · have ht : t = [] := by simpa using h
      subst ht; rfl
    · simp [extract_keywords, claimKeywords, h]

/-! ### Claim C8: default substitution on falsy extraction -/

/-- C8 counterexample: on this document the Title section extracts
successfully to the empty string (whitespace-only capture, then `strip`),
yet the payload substitutes the synthetic default, because Python `or`
treats the empty string like `None`. -/
theorem c8_counterexample :
    extractSection (str "[Title]\n  \n[X]") (str "Title") false = some []
    ∧ (parse_integration_page (str "[Title]\n  \n[X]") (str "X") [] none []).heroTitle
        = str "X + Ruh AI Integration"
    ∧ str "X + Ruh AI Integration" ≠ ([] : Str) := by
  exact ⟨by decide, by decide, by decide⟩

/-- C8 (amended): payload assembly substitutes the synthetic default both
when section extraction returned no value and when it returned an empty
string (Python falsiness); only a non-empty extracted value is used
verbatim. -/
theorem c8_default_on_falsy (content connector_name logo_url : Str)
    (mo : Option CategoryMatcher) (now : Str) (v : Str) :
    (extractSection content (str "Title") false = some v → v ≠ [] →
      (parse_integration_page content connector_name logo_url mo now).heroTitle = v)
    ∧ (extractSection content (str "Title") false = some [] →
      (parse_integration_page content connector_name logo_url mo now).heroTitle
        = connector_name ++ str " + Ruh AI Integration")
    ∧ (extractSection content (str "Title") false = none →
      (parse_integration_page content connector_name logo_url mo now).heroTitle
        = connector_name ++ str " + Ruh AI Integration")
    ∧ (extractSection content (str "One-line connector statement") false = some v → v ≠ [] →
      (parse_integration_page content connector_name logo_url mo now).description = v)
    ∧ (extractSection content (str "One-line connector statement") false = some [] →
      (parse_integration_page content connector_name logo_url mo now).description
        = str "Integration between " ++ connector_name ++ str " and Ruh AI")
    ∧ (extractSection content (str "One-line connector statement") false = none →
      (parse_integration_page content connector_name logo_url mo now).description
        = str "Integration between " ++ connector_name ++ str " and Ruh AI") := by
  refine ⟨fun h hv => ?_, fun h => ?_, fun h => ?_, fun h hv => ?_, fun h => ?_, fun h => ?_⟩
  · show pyOr (extractSection content (str "Title") false) _ = v
    rw [h]; simp [pyOr, hv]
  · show pyOr (extractSection content (str "Title") false) _ = _
    rw [h]; simp [pyOr]
  · show pyOr (extractSection content (str "Title") false) _ = _
    rw [h]; simp [pyOr]
  · show pyOr (extractSection content (str "One-line connector statement") false) _ = v
    rw [h]; simp [pyOr, hv]
  · show pyOr (extractSection content (str "One-line connector statement") false) _ = _
    rw [h]; simp [pyOr]
  · show pyOr (extractSection content (str "One-line connector statement") false) _ = _
    rw [h]; simp [pyOr]

/-- Closed instances of `c8_default_on_falsy`: the empty-string extraction and
a genuine non-empty extraction. -/
theorem c8_default_on_falsy_witness :
    (parse_integration_page (str "[Title]\n  \n[X]") (str "W") [] none []).heroTitle
      = str "W + Ruh AI Integration"
    ∧ (parse_integration_page (str "[Title]\nReal Title\n\n[X]") (str "W") [] none []).heroTitle
      = str "Real Title" := by
  refine ⟨(c8_default_on_falsy (str "[Title]\n  \n[X]") (str "W") [] none [] []).2.1 (by decide),
    (c8_default_on_falsy (str "[Title]\nReal Title\n\n[X]") (str "W") [] none []
      (str "Real Title")).1 (by decide) (by decide)⟩

/-! ### Claim C6: SEO truncation -/

/-- C6 counterexample: when no title is extracted, `seo.metaTitle` is built
from its own default (`"{name} Integration - Ruh AI"`), not from the
heroTitle value (`"{name} + Ruh AI Integration"`) truncated to 60. -/
theorem c6_counterexample :
    (parse_integration_page (str "x") (str "N") [] none []).seo.metaTitle
      ≠ ((parse_integration_page (str "x") (str "N") [] none []).heroTitle).take 60 := by
  decide

/-- C6 (amended): whenever the Title and One-line sections extract to
non-empty strings, `metaTitle` is the title truncated to its first 60
characters, `ogTitle` and `twitterTitle` the first 70, and the three
descriptions are the one-liner truncated to 160/200/200 characters
(when a section is absent each SEO field instead truncates its own declared
default, which differs between the fields). -/
theorem c6_seo_truncation_amended (content connector_name logo_url : Str)
    (mo : Option CategoryMatcher) (now : Str) (t o : Str)
    (ht : extractSection content (str "Title") false = some t) (ht0 : t ≠ [])
    (ho : extractSection content (str "One-line connector statement") false = some o)
    (ho0 : o ≠ []) :
    (parse_integration_page content connector_name logo_url mo now).seo.metaTitle = t.take 60
    ∧ (parse_integration_page content connector_name logo_url mo now).seo.openGraph.ogTitle
        = t.take 70
    ∧ (parse_integration_page content connector_name logo_url mo now).seo.twitterCard.twitterTitle
        = t.take 70
    ∧ (parse_integration_page content connector_name logo_url mo now).seo.metaDescription
        = o.take 160
    ∧ (parse_integration_page content connector_name logo_url mo now).seo.openGraph.ogDescription
        = o.take 200
    ∧ (parse_integration_page content connector_name logo_url mo now).seo.twitterCard.twitterDescription
        = o.take 200
    ∧ (parse_integration_page content connector_name logo_url mo now).heroTitle = t
    ∧ (parse_integration_page content connector_name logo_url mo now).description = o := by
  have et : ∀ d : Str, pyOr (extractSection content (str "Title") false) d = t := by
    intro d; rw [ht]; simp [pyOr, ht0]
  have eo : ∀ d : Str,
      pyOr (extractSection content (str "One-line connector statement") false) d = o := by
    intro d; rw [ho]; simp [pyOr, ho0]
  refine ⟨?_, ?_, ?_, ?_, ?_, ?_, ?_, ?_⟩
  · show (pyOr (extractSection content (str "Title") false) _).take 60 = _; rw [et]
  · show (pyOr (extractSection content (str "Title") false) _).take 70 = _; rw [et]
  · show (pyOr (extractSection content (str "Title") false) _).take 70 = _; rw [et]
  · show (pyOr (extractSection content (str "One-line connector statement") false) _).take 160 = _
    rw [eo]
  · show (pyOr (extractSection content (str "One-line connector statement") false) _).take 200 = _
    rw [eo]
  · show (pyOr (extractSection content (str "One-line connector statement") false) _).take 200 = _
    rw [eo]
  · show pyOr (extractSection content (str "Title") false) _ = _; rw [et]
  · show pyOr (extractSection content (str "One-line connector statement") false) _ = _; rw [eo]

/-- Closed instance of `c6_seo_truncation_amended` with a 100-character
extracted title, echoing the byte-for-byte prefix example of the claim. -/
theorem c6_seo_truncation_witness :
    (parse_integration_page
        (str "[Title]\nAbcdefghijBcdefghijaCcdefghijbDcdefghijcEcdefghijdFcdefghijeGcdefghijfHcdefghijgIcdefghijhJcdefghiji\n\n[One-line connector statement]\nGreat one liner\n\n[X]")
        (str "W") [] none []).seo.metaTitle
      = (str "AbcdefghijBcdefghijaCcdefghijbDcdefghijcEcdefghijdFcdefghijeGcdefghijfHcdefghijgIcdefghijhJcdefghiji").take 60
    ∧ (parse_integration_page
        (str "[Title]\nAbcdefghijBcdefghijaCcdefghijbDcdefghijcEcdefghijdFcdefghijeGcdefghijfHcdefghijgIcdefghijhJcdefghiji\n\n[One-line connector statement]\nGreat one liner\n\n[X]")
        (str "W") [] none []).seo.openGraph.ogTitle
      = (str "AbcdefghijBcdefghijaCcdefghijbDcdefghijcEcdefghijdFcdefghijeGcdefghijfHcdefghijgIcdefghijhJcdefghiji").take 70 := by
  have h := c6_seo_truncation_amended
    (str "[Title]\nAbcdefghijBcdefghijaCcdefghijbDcdefghijcEcdefghijdFcdefghijeGcdefghijfHcdefghijgIcdefghijhJcdefghiji\n\n[One-line connector statement]\nGreat one liner\n\n[X]")
    (str "W") [] none []
    (str "AbcdefghijBcdefghijaCcdefghijbDcdefghijcEcdefghijdFcdefghijeGcdefghijfHcdefghijgIcdefghijhJcdefghiji")
    (str "Great one liner") (by decide) (by decide) (by decide) (by decide)
  exact ⟨h.1, h.2.1⟩

/-! ### Claim C3: section boundaries -/

theorem str_n : str "\n" = ['\n'] := rfl

theorem str_nn : str "\n\n" = ['\n', '\n'] := rfl

theorem str_nb : str "\n[" = ['\n', '['] := rfl

theorem capScan_cons_stop (allowNl : Bool) (stop : Str → Bool) (acc : Str) (c : Char)
    (rest : Str) (hc : (!allowNl && (c == '\n')) = false) (hstop : stop rest = true) :
    capScan allowNl stop acc (c :: rest) = some (acc ++ [c]) := by
  show (if !allowNl && (c == '\n') then none
        else if stop rest then some (acc ++ [c])
        else capScan allowNl stop (acc ++ [c]) rest) = _
  rw [hc, hstop]
  simp

theorem capScan_cons_continue (allowNl : Bool) (stop : Str → Bool) (acc : Str) (c : Char)
    (rest : Str) (hc : (!allowNl && (c == '\n')) = false) (hstop : stop rest = false) :
    capScan allowNl stop acc (c :: rest) = capScan allowNl stop (acc ++ [c]) rest := by
  show (if !allowNl && (c == '\n') then none
        else if stop rest then some (acc ++ [c])
        else capScan allowNl stop (acc ++ [c]) rest) = _
  rw [hc, hstop]
  simp

theorem capScan_first_term (allowNl : Bool) (a : Str) :
    ∀ (acc rest : Str),
      a ≠ [] →
      (allowNl = true ∨ ∀ d ∈ a, d ≠ '\n') →
      (∀ k, k < a.length → 1 ≤ k → termBool ((a ++ rest).drop k) = false) →
      termBool rest = true →
      capScan allowNl termBool acc (a ++ rest) = some (acc ++ a) := by
  induction a with
  | nil => intro acc rest h _ _ _; exact absurd rfl h
  | cons x t ih =>
    intro acc rest _ hallow hfirst hrest
    have hx : (!allowNl && (x == '\n')) = false := by
      rcases hallow with h1 | h2
      · rw [h1]; simp
      · have : (x == '\n') = false := by
          rw [beq_eq_false_iff_ne]; exact h2 x (by simp)
        simp [this]
    cases t with
    | nil =>
      simpa using capScan_cons_stop allowNl termBool acc x rest hx hrest
    | cons y t2 =>
      have hstop1 : termBool (y :: (t2 ++ rest)) = false := by
        have h := hfirst 1 (by simp only [List.length_cons]; omega) (by omega)
        simpa using h
      have hrec := ih (acc ++ [x]) rest (by simp)
        (by rcases hallow with h1 | h2
            · exact Or.inl h1
            · exact Or.inr (fun d hd => h2 d (by simp [hd])))
        (by intro k hk h1k
            have h := hfirst (k + 1)
              (by simp only [List.length_cons] at hk ⊢; omega) (by omega)
            simpa using h)
        hrest
      simp only [List.cons_append] at hrec ⊢
      rw [capScan_cons_continue allowNl termBool acc x (y :: (t2 ++ rest)) hx hstop1, hrec]
      simp

theorem capScan_to_end (a : Str) :
    ∀ acc : Str, a ≠ [] → a.getLast? ≠ some '\n' →
      capScan true (fun r => r.isEmpty || r == str "\n") acc a = some (acc ++ a) := by
  induction a with
  | nil => intro acc h _; exact absurd rfl h
  | cons x t ih =>
    intro acc _ hlast
    cases t with
    | nil =>
      have hstop : ((([] : Str)).isEmpty || (([] : Str) == str "\n")) = true := by simp
      simpa using capScan_cons_stop true _ acc x [] (by simp) hstop
    | cons y t2 =>
      have hlast2 : (y :: t2).getLast? ≠ some '\n' := by
        rwa [List.getLast?_cons_cons] at hlast
      have hstop : (((y :: t2) : Str).isEmpty || ((y :: t2) == str "\n")) = false := by
        rw [str_n]
        cases t2 with
        | nil =>
          have hy : y ≠ '\n' := by simpa using hlast2
          simp only [List.isEmpty_cons, Bool.false_or]
          rw [beq_eq_false_iff_ne]
          simp [hy]
        | cons z t3 =>
          simp only [List.isEmpty_cons, Bool.false_or]
          rw [beq_eq_false_iff_ne]
          simp
      have hrec := ih (acc ++ [x]) (by simp) hlast2
      rw [capScan_cons_continue true _ acc x (y :: t2) (by simp) hstop, hrec]
      simp

theorem wsThenCap_simple (allowNl : Bool) (stop : Str → Bool) (c : Char) (t : Str)
    (hc : isPySpace c = false) :
    wsThenCap true allowNl stop ('\n' :: c :: t) = capScan allowNl stop [] (c :: t) := by
  have hcn : (c == '\n') = false := by
    rw [beq_eq_false_iff_ne]
    intro h; rw [h] at hc; simp [isPySpace] at hc
  have hnlsp : isPySpace '\n' = true := rfl
  unfold wsThenCap
  have htw : (('\n' :: c :: t).takeWhile isPySpace).length = 1 := by
    simp [List.takeWhile_cons, hnlsp, hc]
  rw [htw]
  simp [descTry, hcn]

theorem sectionPat_append (lbl X : Str) (multiline : Bool) :
    sectionPat lbl multiline ((str "[" ++ lbl ++ str "]") ++ X)
      = wsThenCap true multiline termBool X := by
  show (if isPre (str "[" ++ lbl ++ str "]") ((str "[" ++ lbl ++ str "]") ++ X) then
      wsThenCap true multiline termBool
        (((str "[" ++ lbl ++ str "]") ++ X).drop (str "[" ++ lbl ++ str "]").length)
    else none) = _
  rw [isPre_append_self, List.drop_left]
  simp

theorem finalPat_append (lbl X : Str) :
    finalPat lbl ((str "[" ++ lbl ++ str "]") ++ X)
      = wsThenCap true true (fun r => r.isEmpty || r == str "\n") X := by
  show (if isPre (str "[" ++ lbl ++ str "]") ((str "[" ++ lbl ++ str "]") ++ X) then
      wsThenCap true true (fun r => r.isEmpty || r == str "\n")
        (((str "[" ++ lbl ++ str "]") ++ X).drop (str "[" ++ lbl ++ str "]").length)
    else none) = _
  rw [isPre_append_self, List.drop_left]
  simp

theorem extractSection_of_head (lbl X r : Str) (multiline : Bool)
    (h : wsThenCap true multiline termBool X = some r) :
    extractSection ((str "[" ++ lbl ++ str "]") ++ X) lbl multiline = some (pyStrip r) := by
  have hb : (str "[" ++ lbl ++ str "]") ++ X = '[' :: ((lbl ++ str "]") ++ X) := by
    show (['['] ++ lbl ++ str "]") ++ X = _
    simp
  have hp : sectionPat lbl multiline ('[' :: ((lbl ++ str "]") ++ X)) = some r := by
    rw [← hb, sectionPat_append, h]
  unfold extractSection
  rw [hb, searchAux_cons_some hp]
  rfl

theorem extractFinal_of_head (lbl X r : Str)
    (h : wsThenCap true true (fun s => s.isEmpty || s == str "\n") X = some r) :
    extractFinal ((str "[" ++ lbl ++ str "]") ++ X) lbl = some (pyStrip r) := by
  have hb : (str "[" ++ lbl ++ str "]") ++ X = '[' :: ((lbl ++ str "]") ++ X) := by
    show (['['] ++ lbl ++ str "]") ++ X = _
    simp
  have hp : finalPat lbl ('[' :: ((lbl ++ str "]") ++ X)) = some r := by
    rw [← hb, finalPat_append, h]
  unfold extractFinal
  rw [hb, searchAux_cons_some hp]
  rfl

theorem isPre_bracket_cons (lbl : Str) (ch : Char) (s : Str) (h : ('[' == ch) = false) :
    isPre (str "[" ++ lbl ++ str "]") (ch :: s) = false := by
  show (('[' == ch) && isPre (lbl ++ str "]") s) = false
  rw [h]
  simp

theorem sectionPat_head_ne (lbl : Str) (multiline : Bool) (ch : Char) (s : Str)
    (h : ch ≠ '[') : sectionPat lbl multiline (ch :: s) = none := by
  have hb : ('[' == ch) = false := by
    rw [beq_eq_false_iff_ne]; exact fun hh => h hh.symm
  show (if isPre (str "[" ++ lbl ++ str "]") (ch :: s) then
      wsThenCap true multiline termBool ((ch :: s).drop (str "[" ++ lbl ++ str "]").length)
    else none) = none
  rw [isPre_bracket_cons lbl ch s hb]
  simp

theorem finalPat_head_ne (lbl : Str) (ch : Char) (s : Str)
    (h : ch ≠ '[') : finalPat lbl (ch :: s) = none := by
  have hb : ('[' == ch) = false := by
    rw [beq_eq_false_iff_ne]; exact fun hh => h hh.symm
  show (if isPre (str "[" ++ lbl ++ str "]") (ch :: s) then
      wsThenCap true true (fun r => r.isEmpty || r == str "\n")
        ((ch :: s).drop (str "[" ++ lbl ++ str "]").length)
    else none) = none
  rw [isPre_bracket_cons lbl ch s hb]
  simp

theorem searchAux_skip (p : Str → Option Str)
    (hp : ∀ (ch : Char) (s : Str), ch ≠ '[' → p (ch :: s) = none) :
    ∀ (pre suf : Str), '[' ∉ pre → searchAux p (pre ++ suf) = searchAux p suf := by
  intro pre
  induction pre with
  | nil => intro suf _; simp
  | cons ch pr ih =>
    intro suf hpre
    have hch : ch ≠ '[' := by
      intro h; exact hpre (by rw [h]; exact List.mem_cons_self _ _)
    rw [List.cons_append, searchAux_cons_none (hp ch (pr ++ suf) hch)]
    exact ih suf (fun h => hpre (List.mem_cons_of_mem ch h))

theorem c3_section_capture_general (pre lbl : Str) (c : Char) (t b tterm : Str)
    (multiline : Bool)
    (hterm : tterm = str "\n\n" ∨ tterm = str "\n[")
    (hpre : '[' ∉ pre)
    (hc : isPySpace c = false)
    (hallow : multiline = true ∨ ∀ d ∈ c :: t, d ≠ '\n')
    (hfirst : ∀ k, k < (c :: t).length → 1 ≤ k →
        termBool (((c :: t) ++ tterm ++ b).drop k) = false)
    (hstrip : pyStrip (c :: t) = c :: t) :
    extractSection (pre ++ (str "[" ++ lbl ++ str "]" ++ str "\n" ++ (c :: t) ++ tterm ++ b))
        lbl multiline = some (c :: t) := by
  have htermb : termBool (tterm ++ b) = true := by
    rcases hterm with h | h <;> subst h <;> simp [termBool, str_nn, str_nb, isPre]
  have hskip : extractSection
        (pre ++ (str "[" ++ lbl ++ str "]" ++ str "\n" ++ (c :: t) ++ tterm ++ b))
        lbl multiline
      = extractSection (str "[" ++ lbl ++ str "]" ++ str "\n" ++ (c :: t) ++ tterm ++ b)
        lbl multiline := by
    unfold extractSection
    rw [searchAux_skip (sectionPat lbl multiline)
      (fun ch s hch => sectionPat_head_ne lbl multiline ch s hch) pre _ hpre]
  have hX : str "[" ++ lbl ++ str "]" ++ str "\n" ++ (c :: t) ++ tterm ++ b
      = (str "[" ++ lbl ++ str "]") ++ ('\n' :: c :: (t ++ tterm ++ b)) := by
    rw [str_n]
    simp
  have hcap : wsThenCap true multiline termBool ('\n' :: c :: (t ++ tterm ++ b))
      = some (c :: t) := by
    rw [wsThenCap_simple _ _ _ _ hc]
    simpa using capScan_first_term multiline (c :: t) [] (tterm ++ b) (by simp) hallow
      (fun k hk h1k => by simpa using hfirst k hk h1k) htermb
  rw [hskip, hX, extractSection_of_head lbl _ _ multiline hcap, hstrip]

theorem c3_final_capture_general (pre : Str) (c : Char) (t : Str)
    (hpre : '[' ∉ pre)
    (hc : isPySpace c = false)
    (hlast : (c :: t).getLast? ≠ some '\n')
    (hstrip : pyStrip (c :: t) = c :: t) :
    extractFinal (pre ++ (str "[FAQs]" ++ str "\n" ++ (c :: t))) (str "FAQs")
      = some (c :: t) := by
  have hskip : extractFinal (pre ++ (str "[FAQs]" ++ str "\n" ++ (c :: t))) (str "FAQs")
      = extractFinal (str "[FAQs]" ++ str "\n" ++ (c :: t)) (str "FAQs") := by
    unfold extractFinal
    rw [searchAux_skip (finalPat (str "FAQs"))
      (fun ch s hch => finalPat_head_ne (str "FAQs") ch s hch) pre _ hpre]
  have hX : str "[FAQs]" ++ str "\n" ++ (c :: t)
      = (str "[" ++ str "FAQs" ++ str "]") ++ ('\n' :: c :: t) := by
    show ['[', 'F', 'A', 'Q', 's', ']'] ++ (['\n'] ++ (c :: t))
      = (['['] ++ ['F', 'A', 'Q', 's'] ++ [']']) ++ ('\n' :: c :: t)
    simp
  have hcap : wsThenCap true true (fun r => r.isEmpty || r == str "\n") ('\n' :: c :: t)
      = some (c :: t) := by
    rw [wsThenCap_simple _ _ _ _ hc]
    simpa using capScan_to_end (c :: t) [] (by simp) hlast
  rw [hskip, hX, extractFinal_of_head (str "FAQs") _ _ hcap, hstrip]

/-- C3 counterexample: on `"[Core Capabilities]\nab\n\ncd"` the captured
section content is `"ab"`: the blank line terminates the capture even though
it is not followed by `[`-prefixed text, contradicting the claim that such a
blank line does not terminate the content (which would capture to end of
document, `"ab\n\ncd"`). -/
theorem c3_counterexample :
    extractSection (str "[Core Capabilities]\nab\n\ncd") (str "Core Capabilities") true
      = some (str "ab")
    ∧ extractSection (str "[Core Capabilities]\nab\n\ncd") (str "Core Capabilities") true
      ≠ some (str "ab\n\ncd") := by
  exact ⟨by decide, by decide⟩

/-- C3 (amended): for every document built from any `[`-free prefix, a
bracketed section label with its newline, section content (which may span
multiple lines under `re.DOTALL`, and must be newline-free otherwise), and a
first terminator that is either a blank line (double newline) or a newline
followed by `[` — whichever of the two occurs first, expressed by the
hypothesis that no earlier position of the content starts a terminator — the
captured section content runs exactly up to that first terminator,
regardless of what follows it; only the final declared section (FAQs)
captures to the end of the document, across any interior blank lines. -/
theorem c3_section_boundaries_amended :
    (∀ (pre lbl : Str) (c : Char) (t b tterm : Str) (multiline : Bool),
        tterm = str "\n\n" ∨ tterm = str "\n[" →
        '[' ∉ pre →
        isPySpace c = false →
        (multiline = true ∨ ∀ d ∈ c :: t, d ≠ '\n') →
        (∀ k, k < (c :: t).length → 1 ≤ k →
            termBool (((c :: t) ++ tterm ++ b).drop k) = false) →
        pyStrip (c :: t) = c :: t →
        extractSection
            (pre ++ (str "[" ++ lbl ++ str "]" ++ str "\n" ++ (c :: t) ++ tterm ++ b))
            lbl multiline = some (c :: t))
    ∧ (∀ (pre : Str) (c : Char) (t : Str),
        '[' ∉ pre →
        isPySpace c = false →
        (c :: t).getLast? ≠ some '\n' →
        pyStrip (c :: t) = c :: t →
        extractFinal (pre ++ (str "[FAQs]" ++ str "\n" ++ (c :: t))) (str "FAQs")
          = some (c :: t)) :=
  ⟨fun pre lbl c t b tterm multiline hterm hpre hc hallow hfirst hstrip =>
      c3_section_capture_general pre lbl c t b tterm multiline hterm hpre hc hallow
        hfirst hstrip,
   fun pre c t hpre hc hlast hstrip =>
      c3_final_capture_general pre c t hpre hc hlast hstrip⟩

/-- Closed instances of `c3_section_boundaries_amended`: a multi-line capture
after a non-empty prefix, truncated at a blank line followed by plain text; a
capture truncated by a newline-plus-bracket with no blank line at all; and a
FAQs capture after a prefix, running to end of document across an interior
blank line. -/
theorem c3_section_boundaries_witness :
    extractSection (str "intro text\n"
        ++ (str "[" ++ str "Core Capabilities" ++ str "]" ++ str "\n"
          ++ str "line one\nline two" ++ str "\n\n" ++ str "plain tail"))
        (str "Core Capabilities") true
      = some (str "line one\nline two")
    ∧ extractSection (str ""
        ++ (str "[" ++ str "Key Benefits" ++ str "]" ++ str "\n"
          ++ str "alpha beta" ++ str "\n[" ++ str "Security and Permissions]\netc"))
        (str "Key Benefits") true
      = some (str "alpha beta")
    ∧ extractFinal (str "before\n" ++ (str "[FAQs]" ++ str "\n" ++ str "Q: a\n\nA: b"))
        (str "FAQs")
      = some (str "Q: a\n\nA: b") := by
  refine ⟨?_, ?_, ?_⟩
  · exact c3_section_boundaries_amended.1 (str "intro text\n") (str "Core Capabilities")
      'l' (str "ine one\nline two") (str "plain tail") (str "\n\n") true
      (Or.inl rfl) (by decide) (by decide) (Or.inl rfl) (by decide) (by decide)
  · exact c3_section_boundaries_amended.1 (str "") (str "Key Benefits")
      'a' (str "lpha beta") (str "Security and Permissions]\netc") (str "\n[") true
      (Or.inr rfl) (by decide) (by decide) (Or.inl rfl) (by decide) (by decide)
  · exact c3_section_boundaries_amended.2 (str "before\n") 'Q' (str ": a\n\nA: b")
      (by decide) (by decide) (by decide) (by decide)

/-! ### Claim C1: id lists returned by the matcher -/

theorem insertDesc_perm (x : ScoredEntry) : ∀ l, (insertDesc x l).Perm (x :: l)
  | [] => List.Perm.refl _
  | y :: ys => by
    unfold insertDesc
    by_cases h : x.score < y.score
    · rw [if_pos h]
      exact ((insertDesc_perm x ys).cons y).trans (List.Perm.swap x y ys)
    · rw [if_neg h]

theorem sortDescStable_perm : ∀ l, (sortDescStable l).Perm l
  | [] => List.Perm.refl _
  | a :: t => (insertDesc_perm a (sortDescStable t)).trans ((sortDescStable_perm t).cons a)

theorem insertDesc_pairwise (f : ScoredEntry → Nat) (x : ScoredEntry) :
    ∀ l : List ScoredEntry, l.Pairwise (scoreRel f) →
      (∀ y ∈ l, x.score = y.score → f x < f y) →
      (insertDesc x l).Pairwise (scoreRel f)
  | [], _, _ => by simp [insertDesc, scoreRel]
  | y :: ys, hl, hx => by
    rcases List.pairwise_cons.mp hl with ⟨hy, hys⟩
    unfold insertDesc
    by_cases h : x.score < y.score
    · rw [if_pos h]
      refine List.pairwise_cons.mpr ⟨?_, ?_⟩
      · intro w hw
        rcases List.mem_cons.mp ((insertDesc_perm x ys).mem_iff.mp hw) with rfl | hwys
        · exact Or.inl h
        · exact hy w hwys
      · exact insertDesc_pairwise f x ys hys (fun z hz he => hx z (by simp [hz]) he)
    · rw [if_neg h]
      refine List.pairwise_cons.mpr ⟨?_, hl⟩
      intro w hw
      rcases List.mem_cons.mp hw with rfl | hwys
      · rcases Nat.lt_or_ge w.score x.score with hlt | hge
        · exact Or.inl hlt
        · have heq : w.score = x.score := Nat.le_antisymm (Nat.le_of_not_lt h) hge
          exact Or.inr ⟨heq, hx w (by simp) heq.symm⟩
      · rcases hy w hwys with hlt | ⟨heq, _⟩
        · exact Or.inl (Nat.lt_of_lt_of_le hlt (Nat.le_of_not_lt h))
        · rcases Nat.lt_or_ge y.score x.score with hlt2 | hge2
          · exact Or.inl (by rw [heq]; exact hlt2)
          · have heq2 : y.score = x.score := Nat.le_antisymm (Nat.le_of_not_lt h) hge2
            exact Or.inr ⟨heq.trans heq2, hx w (by simp [hwys]) (heq.trans heq2).symm⟩

theorem sortDescStable_pairwise (f : ScoredEntry → Nat) :
    ∀ l : List ScoredEntry, l.Pairwise (fun a b => f a < f b) →
      (sortDescStable l).Pairwise (scoreRel f)
  | [], _ => by simp [sortDescStable]
  | a :: t, h => by
    rcases List.pairwise_cons.mp h with ⟨ha, ht⟩
    exact insertDesc_pairwise f a (sortDescStable t) (sortDescStable_pairwise f t ht)
      (fun y hy _ => ha y ((sortDescStable_perm t).mem_iff.mp hy))

theorem find?_eq_of_nodup (tax : List TaxEntry) (e : TaxEntry)
    (hnd : (tax.map TaxEntry.id).Nodup) (he : e ∈ tax) :
    tax.find? (fun x => x.id == e.id) = some e := by
  induction tax with
  | nil => cases he
  | cons h t ih =>
    rw [List.map_cons, List.nodup_cons] at hnd
    rcases hnd with ⟨hnotin, hndt⟩
    rcases List.mem_cons.mp he with rfl | het
    · exact List.find?_cons_of_pos _ (by simp)
    · have hne : (h.id == e.id) = false := by
        rw [beq_eq_false_iff_ne]
        intro hh
        exact hnotin (by rw [hh]; exact List.mem_map_of_mem _ het)
      rw [List.find?_cons_of_neg _ (by simp [hne])]
      exact ih hndt het

theorem idIndex_head (h : TaxEntry) (t : List TaxEntry) : idIndex (h :: t) h.id = 0 := by
  simp [idIndex, List.findIdx_cons]

theorem idIndex_tail (h : TaxEntry) (t : List TaxEntry) (i : Int)
    (hne : (h.id == i) = false) : idIndex (h :: t) i = idIndex t i + 1 := by
  simp [idIndex, List.findIdx_cons, hne]

theorem nodup_pairwise_idIndex (tax : List TaxEntry)
    (hnd : (tax.map TaxEntry.id).Nodup) :
    tax.Pairwise (fun e1 e2 => idIndex tax e1.id < idIndex tax e2.id) := by
  induction tax with
  | nil => simp
  | cons h t ih =>
    rw [List.map_cons, List.nodup_cons] at hnd
    rcases hnd with ⟨hnotin, hndt⟩
    have hne : ∀ a ∈ t, (h.id == a.id) = false := by
      intro a ha
      rw [beq_eq_false_iff_ne]
      intro hh
      exact hnotin (by rw [hh]; exact List.mem_map_of_mem _ ha)
    refine List.pairwise_cons.mpr ⟨?_, ?_⟩
    · intro e2 he2
      rw [idIndex_head, idIndex_tail h t e2.id (hne e2 he2)]
      omega
    · refine List.Pairwise.imp_of_mem ?_ (ih hndt)
      intro a b ha hb hab
      rw [idIndex_tail h t a.id (hne a ha), idIndex_tail h t b.id (hne b hb)]
      omega

theorem buildScoreFn_id (connector_name content : Str) (e : TaxEntry) (x : ScoredEntry)
    (h : (if 0 < scoreEntry connector_name content e.keywords then
          some (⟨e.id, e.name, scoreEntry connector_name content e.keywords,
            matchedKeywordsOf connector_name content e.keywords⟩ : ScoredEntry)
        else none) = some x) : x.id = e.id := by
  by_cases hs : 0 < scoreEntry connector_name content e.keywords
  · rw [if_pos hs] at h; cases h; rfl
  · rw [if_neg hs] at h; cases h

theorem filterMap_map_sublist {α β γ : Type} (g : α → Option β) (f : α → γ) (f2 : β → γ)
    (hg : ∀ a b, g a = some b → f2 b = f a) :
    ∀ l : List α, ((l.filterMap g).map f2).Sublist (l.map f)
  | [] => by simp
  | a :: l => by
    rw [List.filterMap_cons, List.map_cons]
    cases hga : g a with
    | none => exact (filterMap_map_sublist g f f2 hg l).cons _
    | some b =>
      rw [List.map_cons, hg a b hga]
      exact (filterMap_map_sublist g f f2 hg l).cons₂ _

theorem buildScores_mem (connector_name content : Str) (tax : List TaxEntry)
    (sc : ScoredEntry) (h : sc ∈ buildScores connector_name content tax) :
    ∃ e ∈ tax, sc.id = e.id ∧ sc.score = scoreEntry connector_name content e.keywords
      ∧ 0 < sc.score := by
  rcases List.mem_filterMap.mp h with ⟨e, he, hfe⟩
  by_cases hs : 0 < scoreEntry connector_name content e.keywords
  · rw [if_pos hs] at hfe
    cases hfe
    exact ⟨e, he, rfl, rfl, hs⟩
  · rw [if_neg hs] at hfe; cases hfe

theorem matchTaxonomy_ok (tax : List TaxEntry) (connector_name content : Str) (maxN : Nat)
    (hnd : (tax.map TaxEntry.id).Nodup) :
    matchOutputOk tax connector_name content maxN
      (matchTaxonomy tax connector_name content maxN) := by
  have hmem : ∀ sc ∈ buildScores connector_name content tax,
      idScore tax connector_name content sc.id = sc.score ∧ 0 < sc.score := by
    intro sc hsc
    rcases buildScores_mem connector_name content tax sc hsc with ⟨e, he, hid, hans, hpos⟩
    refine ⟨?_, hpos⟩
    rw [idScore, hid, find?_eq_of_nodup tax e hnd he]
    simp [hans]
  have hpw : (buildScores connector_name content tax).Pairwise
      (fun a b => idIndex tax a.id < idIndex tax b.id) := by
    rw [buildScores]
    refine List.pairwise_filterMap.mpr ?_
    refine (nodup_pairwise_idIndex tax hnd).imp ?_
    intro e e2 hlt x hx y hy
    rw [buildScoreFn_id connector_name content e x hx,
      buildScoreFn_id connector_name content e2 y hy]
    exact hlt
  have hsp := sortDescStable_pairwise (fun sc => idIndex tax sc.id)
    (buildScores connector_name content tax) hpw
  have hsp2 : (sortDescStable (buildScores connector_name content tax)).Pairwise
      (fun a b => rankedBefore tax connector_name content a.id b.id) := by
    refine List.Pairwise.imp_of_mem ?_ hsp
    intro a b ha hb hab
    have hamem := (sortDescStable_perm _).mem_iff.mp ha
    have hbmem := (sortDescStable_perm _).mem_iff.mp hb
    rcases hmem a hamem with ⟨hsa, _⟩
    rcases hmem b hbmem with ⟨hsb, _⟩
    rcases hab with hlt | ⟨heq, hidx⟩
    · exact Or.inl (by rw [hsa, hsb]; exact hlt)
    · exact Or.inr ⟨by rw [hsa, hsb]; exact heq, hidx⟩
  have hids : ((buildScores connector_name content tax).map ScoredEntry.id).Nodup := by
    refine List.Nodup.sublist ?_ hnd
    exact filterMap_map_sublist _ TaxEntry.id ScoredEntry.id
      (fun a b hab => buildScoreFn_id connector_name content a b hab) tax
  refine ⟨?_, ?_, ?_, ?_⟩
  · rw [matchTaxonomy]
    simp
  · rw [matchTaxonomy]
    have h2 : ((sortDescStable (buildScores connector_name content tax)).map
        ScoredEntry.id).Nodup :=
      ((sortDescStable_perm _).map ScoredEntry.id).nodup_iff.mpr hids
    exact List.Nodup.sublist ((List.take_sublist _ _).map _) h2
  · rw [matchTaxonomy]
    exact List.pairwise_map.mpr (List.Pairwise.sublist (List.take_sublist _ _) hsp2)
  · intro i hi
    rw [matchTaxonomy] at hi
    rcases List.mem_map.mp hi with ⟨sc, hsc, rfl⟩
    have hscored := (sortDescStable_perm _).mem_iff.mp (List.mem_of_mem_take hsc)
    rcases hmem sc hscored with ⟨hs, hp⟩
    rw [hs]; exact hp

/-- C1: for taxonomies with pairwise-distinct ids, `match_categories` and
`match_tags` return id lists of length at most the requested maximum,
duplicate-free, ordered by strictly decreasing score with equal scores in
original taxonomy order, and containing no zero-score entry. -/
theorem c1_match_ranked (m : CategoryMatcher)
    (hc : (m.categories.map TaxEntry.id).Nodup) (ht : (m.tags.map TaxEntry.id).Nodup)
    (connector_name content : Str) (maxCat maxTag : Nat) :
    matchOutputOk m.categories connector_name content maxCat
      (m.match_categories connector_name content maxCat)
    ∧ matchOutputOk m.tags connector_name content maxTag
      (m.match_tags connector_name content maxTag) :=
  ⟨matchTaxonomy_ok m.categories connector_name content maxCat hc,
   matchTaxonomy_ok m.tags connector_name content maxTag ht⟩

/-- Closed instance of `c1_match_ranked` on a concrete matcher. -/
theorem c1_match_ranked_witness :
    matchOutputOk [⟨1, str "CRM", [str "crm"]⟩, ⟨2, str "Data", [str "data"]⟩]
      (str "Acme") (str "crm data data") 3
      ((CategoryMatcher.mk [⟨1, str "CRM", [str "crm"]⟩, ⟨2, str "Data", [str "data"]⟩]
          [⟨7, str "Sync", [str "sync"]⟩]).match_categories (str "Acme") (str "crm data data") 3)
    ∧ matchOutputOk [⟨7, str "Sync", [str "sync"]⟩] (str "Acme") (str "crm data data") 2
      ((CategoryMatcher.mk [⟨1, str "CRM", [str "crm"]⟩, ⟨2, str "Data", [str "data"]⟩]
          [⟨7, str "Sync", [str "sync"]⟩]).match_tags (str "Acme") (str "crm data data") 2) :=
  c1_match_ranked
    (CategoryMatcher.mk [⟨1, str "CRM", [str "crm"]⟩, ⟨2, str "Data", [str "data"]⟩]
      [⟨7, str "Sync", [str "sync"]⟩])
    (by decide) (by decide) (str "Acme") (str "crm data data") 3 2

end ConnectorAutomation
